import Mathlib

set_option maxHeartbeats 1000000
set_option maxRecDepth 4000

/-!
Verification of the SIM800L AT-command driver (sim800l.py).

Text is modelled as lists of Unicode codepoints (`List Nat`), byte strings as
lists of byte values (`List Nat`).  The serial channel, the monotonic clock and
the session state are modelled explicitly; every driver operation is embedded
as a state-passing function that can also raise a Python exception, mirroring
the source line by line.
-/

/-- Whitespace set stripped by Python `bytes.strip()`. -/
def isWsByte (b : Nat) : Bool :=
  b = 32 || b = 9 || b = 10 || b = 13 || b = 11 || b = 12

/-- Whitespace set stripped by Python `str.strip()` (restricted to the
codepoints that can actually occur in decoded GSM 03.38 text plus the common
ASCII/Latin-1 whitespace). -/
def isWsStr (b : Nat) : Bool :=
  b = 32 || b = 9 || b = 10 || b = 13 || b = 11 || b = 12 ||
  b = 28 || b = 29 || b = 30 || b = 31 || b = 133 || b = 160

/-- Strip from both ends all elements satisfying `p`, as Python `strip` does. -/
def pyStripWith (p : Nat → Bool) (l : List Nat) : List Nat :=
  ((l.dropWhile p).reverse.dropWhile p).reverse

/-- Python `bytes.strip()`. -/
def pyStripB (l : List Nat) : List Nat := pyStripWith isWsByte l

/-- Python `str.strip()`. -/
def pyStripS (l : List Nat) : List Nat := pyStripWith isWsStr l

/-- Python `str.split(sep)` for a one-character separator: always returns at
least one (possibly empty) part. -/
def splitOnNat (sep : Nat) : List Nat → List (List Nat)
  | [] => [[]]
  | c :: rest =>
    match splitOnNat sep rest with
    | [] => [[]]
    | p :: ps => if c = sep then [] :: p :: ps else (c :: p) :: ps

/-- Python `str.isnumeric()` restricted to the ASCII digits (the only numeric
codepoints producible by the GSM 03.38 decoder). -/
def pyIsNumeric (l : List Nat) : Bool :=
  decide (l ≠ []) && l.all (fun c => 48 ≤ c && c ≤ 57)

/-- Numeric value of a list of ASCII digit codepoints. -/
def digitsVal (l : List Nat) : Nat :=
  l.foldl (fun acc c => acc * 10 + (c - 48)) 0

/-- Python `int(str)`: strip whitespace, optional sign, then decimal digits;
`none` models a raised `ValueError`. -/
def pyParseInt (l : List Nat) : Option Int :=
  let t := pyStripS l
  match t with
  | 43 :: ds => if pyIsNumeric ds then some (Int.ofNat (digitsVal ds)) else none
  | 45 :: ds => if pyIsNumeric ds then some (-(Int.ofNat (digitsVal ds))) else none
  | ds => if pyIsNumeric ds then some (Int.ofNat (digitsVal ds)) else none

/-- Python `str.replace(c, '')`: remove every occurrence of one character. -/
def pyRemove (c : Nat) (l : List Nat) : List Nat := l.filter (fun b => b ≠ c)

/-- Codepoints of a Lean string literal, used to transliterate the Python
string constants of the source. -/
def codes (s : String) : List Nat := s.data.map Char.toNat

/-!
GSM 03.38 codec.  The driver delegates to the external `gsm0338` Python
package; that package is modelled here from the GSM 03.38 standard: the basic
7-bit table (all codes 0x00-0x7F except the escape 0x1B), the extension table
reached through the escape byte 0x1B, and strict error handling (a byte above
0x7F, or an escape not followed by an extension-table byte, raises
`UnicodeDecodeError`; an unsupported character raises `UnicodeEncodeError`).
-/

/-- Basic GSM 03.38 table as (gsm code, unicode codepoint) pairs. -/
def gsmBasicTable : List (Nat × Nat) :=
  [(0, 64), (1, 163), (2, 36), (3, 165), (4, 232), (5, 233), (6, 249),
   (7, 236), (8, 242), (9, 199), (10, 10), (11, 216), (12, 248), (13, 13),
   (14, 197), (15, 229), (16, 916), (17, 95), (18, 934), (19, 915),
   (20, 923), (21, 937), (22, 928), (23, 936), (24, 931), (25, 920),
   (26, 926), (28, 198), (29, 230), (30, 223), (31, 201), (32, 32),
   (33, 33), (34, 34), (35, 35), (36, 164), (37, 37), (38, 38), (39, 39),
   (40, 40), (41, 41), (42, 42), (43, 43), (44, 44), (45, 45), (46, 46),
   (47, 47), (48, 48), (49, 49), (50, 50), (51, 51), (52, 52), (53, 53),
   (54, 54), (55, 55), (56, 56), (57, 57), (58, 58), (59, 59), (60, 60),
   (61, 61), (62, 62), (63, 63), (64, 161), (65, 65), (66, 66), (67, 67),
   (68, 68), (69, 69), (70, 70), (71, 71), (72, 72), (73, 73), (74, 74),
   (75, 75), (76, 76), (77, 77), (78, 78), (79, 79), (80, 80), (81, 81),
   (82, 82), (83, 83), (84, 84), (85, 85), (86, 86), (87, 87), (88, 88),
   (89, 89), (90, 90), (91, 196), (92, 214), (93, 209), (94, 220),
   (95, 167), (96, 191), (97, 97), (98, 98), (99, 99), (100, 100),
   (101, 101), (102, 102), (103, 103), (104, 104), (105, 105), (106, 106),
   (107, 107), (108, 108), (109, 109), (110, 110), (111, 111), (112, 112),
   (113, 113), (114, 114), (115, 115), (116, 116), (117, 117), (118, 118),
   (119, 119), (120, 120), (121, 121), (122, 122), (123, 228), (124, 246),
   (125, 241), (126, 252), (127, 224)]

/-- Extension GSM 03.38 table (reached via the 0x1B escape byte). -/
def gsmExtTable : List (Nat × Nat) :=
  [(10, 12), (20, 94), (40, 123), (41, 125), (47, 92), (60, 91), (61, 126),
   (62, 93), (64, 124), (101, 8364)]

/-- Lookup by key (first component) in a codec table. -/
def tableGet (k : Nat) : List (Nat × Nat) → Option Nat
  | [] => none
  | (a, b) :: r => if k = a then some b else tableGet k r

/-- Lookup by value (second component) in a codec table. -/
def tableFind (v : Nat) : List (Nat × Nat) → Option (Nat × Nat)
  | [] => none
  | (a, b) :: r => if b = v then some (a, b) else tableFind v r

/-- Decode a GSM 03.38 byte sequence into codepoints; `none` models a raised
`UnicodeDecodeError` (unmapped byte, or ill-formed escape sequence). -/
def gsmDecode : List Nat → Option (List Nat)
  | [] => some []
  | b :: rest =>
    if b = 27 then
      match rest with
      | [] => none
      | e :: rest2 =>
        match tableGet e gsmExtTable with
        | some u => (gsmDecode rest2).map (fun t => u :: t)
        | none => none
    else
      match tableGet b gsmBasicTable with
      | some u => (gsmDecode rest).map (fun t => u :: t)
      | none => none

/-- Encode one codepoint: basic table first, then the escaped extension
table. -/
def gsmEncodeChar (u : Nat) : Option (List Nat) :=
  match tableFind u gsmBasicTable with
  | some p => some [p.1]
  | none =>
    match tableFind u gsmExtTable with
    | some p => some [27, p.1]
    | none => none

/-- Membership in the supported GSM 03.38 alphabet. -/
def inGsmAlphabet (u : Nat) : Bool := (gsmEncodeChar u).isSome

/-- Replacement performed by `convert_to_string` before its retry: every byte
above 127 becomes `ord('#') = 35` (source lines 45-48). -/
def substituteHigh (buf : List Nat) : List Nat :=
  buf.map (fun b => if 127 < b then 35 else b)

/-- Source `convert_to_string` (lines 34-49): decode and strip; on a decode
failure substitute bytes above 127 with `#` and retry once.  `none` models an
exception escaping the function (the second decode also failed). -/
def convert_to_string (buf : List Nat) : Option (List Nat) :=
  match gsmDecode buf with
  | some s => some (pyStripS s)
  | none => (gsmDecode (substituteHigh buf)).map pyStripS

/-- Source `convert_gsm` (lines 52-58): encode, propagating an encoding error
(`none`) on the first unsupported character. -/
def convert_gsm : List Nat → Option (List Nat)
  | [] => some []
  | u :: t =>
    match gsmEncodeChar u, convert_gsm t with
    | some bs, some r => some (bs ++ r)
    | _, _ => none

/-!
Session state and effect monad.  The serial channel is modelled half-duplex:
`pending` holds the lines already buffered on the wire (readable without
delay), and `script` holds, for each future `write`, the batch of reply lines
the modem will deliver into the buffer.  `now` is the monotonic clock in
milliseconds; a `readline` on an empty buffer blocks for the serial timeout
and returns the empty line, exactly as pyserial does.
-/

/-- Python exceptions that the embedded driver code can raise. -/
inductive PyErr
  | attributeError
  | indexError
  | nameError
  | typeError
  | unicodeError
  | valueError
deriving DecidableEq, Repr

/-- Payload component of a `check_incoming` result tuple: Python `None`,
`False`, an `int`, or a `str`. -/
inductive Payload
  | pnone
  | pfalse
  | pint (n : Int)
  | pstr (s : List Nat)
deriving DecidableEq, Repr

/-- Python truthiness of a `Payload` (negated: `not s[1]`). -/
def payloadFalsy : Payload → Bool
  | .pnone => true
  | .pfalse => true
  | .pint n => n = 0
  | .pstr s => s = []

/-- Device-session state: the modelled serial channel, the monotonic clock,
and the `SIM800L` instance attributes touched by the embedded operations
(`_msgid`, `savbuf`, the two callback slots — a `Bool` records whether a
callback is registered, and a counter records how often it was invoked). -/
structure St where
  pending : List (List Nat)
  script : List (List (List Nat))
  written : List (List Nat)
  now : Nat
  sertimeout : Nat
  msgid : Int
  msg_action : Bool
  no_carrier_action : Bool
  msgCalls : Nat
  ncCalls : Nat
  savbuf : Option (List Nat)
deriving DecidableEq, Repr

/-- State-and-exception monad for the embedded driver operations. -/
def M (α : Type) : Type := St → Except PyErr (α × St)

/-- Monad unit for `M`. -/
def mret {α : Type} (a : α) : M α := fun st => Except.ok (a, st)

/-- Monad bind for `M`: exceptions short-circuit. -/
def mbind {α β : Type} (x : M α) (f : α → M β) : M β := fun st =>
  match x st with
  | Except.error e => Except.error e
  | Except.ok (a, st2) => f a st2

instance : Monad M where
  pure := mret
  bind := mbind

/-- Raise a Python exception. -/
def mthrow {α : Type} (e : PyErr) : M α := fun _ => Except.error e

/-- Read the session state. -/
def mget : M St := fun st => Except.ok (st, st)

/-- Update the session state. -/
def mmodify (f : St → St) : M Unit := fun st => Except.ok ((), f st)

@[simp] theorem run_bind {α β : Type} (x : M α) (f : α → M β) (st : St) :
    (x >>= f) st =
      match x st with
      | Except.error e => Except.error e
      | Except.ok (a, st2) => f a st2 := rfl

@[simp] theorem run_pure {α : Type} (a : α) (st : St) :
    (pure a : M α) st = Except.ok (a, st) := rfl

@[simp] theorem run_mret {α : Type} (a : α) (st : St) :
    (mret a : M α) st = Except.ok (a, st) := rfl

@[simp] theorem run_mthrow {α : Type} (e : PyErr) (st : St) :
    (mthrow e : M α) st = Except.error e := rfl

@[simp] theorem run_mget (st : St) : mget st = Except.ok (st, st) := rfl

@[simp] theorem run_mmodify (f : St → St) (st : St) :
    mmodify f st = Except.ok ((), f st) := rfl

/-- Model of `self.ser.readline()`: pop the first buffered line; when nothing
is buffered, block for the serial timeout and return the empty line. -/
def readline : M (List Nat) := fun st =>
  match st.pending with
  | [] => Except.ok ([], { st with now := st.now + st.sertimeout })
  | l :: rest => Except.ok (l, { st with pending := rest })

/-- Model of `self.ser.readlines()`: drain every buffered line, blocking for
the serial timeout at the end. -/
def readlines : M (List (List Nat)) := fun st =>
  Except.ok (st.pending, { st with pending := [], now := st.now + st.sertimeout })

/-- Model of `self.ser.write(b)`: log the write and let the modem deliver the
next scripted reply batch into the buffer. -/
def serWrite (b : List Nat) : M Unit := fun st =>
  Except.ok ((), { st with
    written := st.written ++ [b],
    pending := st.pending ++ st.script.headD [],
    script := st.script.tail })

/-- Model of `time.sleep`, in milliseconds. -/
def pySleep (ms : Nat) : M Unit := mmodify fun st => { st with now := st.now + ms }

/-- Model of the flush loop at the head of `command` (lines 344-346): each
iteration pops one already-buffered line, leaving the buffer empty. -/
def flushInput : M Unit := mmodify fun st => { st with pending := [] }

@[simp] theorem run_readline (st : St) :
    readline st =
      match st.pending with
      | [] => Except.ok ([], { st with now := st.now + st.sertimeout })
      | l :: rest => Except.ok (l, { st with pending := rest }) := rfl

@[simp] theorem run_readlines (st : St) :
    readlines st =
      Except.ok (st.pending, { st with pending := [], now := st.now + st.sertimeout }) := rfl

@[simp] theorem run_serWrite (b : List Nat) (st : St) :
    serWrite b st =
      Except.ok ((), { st with
        written := st.written ++ [b],
        pending := st.pending ++ st.script.headD [],
        script := st.script.tail }) := rfl

/-- Monadic wrapper for `convert_to_string`: a failed decode raises. -/
def mDecode (b : List Nat) : M (List Nat) :=
  match convert_to_string b with
  | some s => mret s
  | none => mthrow PyErr.unicodeError

/-- Monadic wrapper for `convert_gsm`: a failed encode raises. -/
def mEncode (s : List Nat) : M (List Nat) :=
  match convert_gsm s with
  | some b => mret b
  | none => mthrow PyErr.unicodeError

/-- Trailing-line accumulation of `command` for `lines > 1` (source lines
373-382): read up to `n` more lines into `savbuf`, skipping blanks, `OK` and
`+CMTI: "SM",`-prefixed lines, stopping early on an empty read. -/
def savLoop : Nat → List Nat → M (Option (List Nat))
  | 0, result => pure (some result)
  | n + 1, result => do
    let b ← readline
    if b = [] then
      pure (some result)
    else do
      let s ← mDecode b
      if s ≠ [] ∧ s ≠ codes "OK" ∧ s.take 12 ≠ codes "+CMTI: \"SM\"," then
        mmodify fun st => { st with savbuf := some ((st.savbuf.getD []) ++ s ++ [10]) }
      else
        pure ()
      savLoop n result

/-- Source `SIM800L.command` (lines 332-384).  Returns `none` for Python
`None` and `some text` for a decoded reply line. -/
def command (cmdstr : List Nat) (lines : Int := 1) (waitfor : Nat := 500)
    (msgtext : Option (List Nat) := none) (flush_input : Bool := true) :
    M (Option (List Nat)) := do
  if flush_input then flushInput else pure ()
  let enc ← mEncode cmdstr
  serWrite enc
  if lines = 0 then
    pure none
  else do
    match msgtext with
    | some m => do
      let em ← mEncode m
      serWrite (em ++ [26])
    | none => pure ()
    if 1000 < waitfor then pySleep (waitfor - 1000) else pure ()
    let buf0 ← readline
    let buf := pyStripB buf0
    if lines = -1 then do
      let more ← readlines
      let bufs := if buf ≠ [] then buf :: more else more
      if bufs = [] then
        pure none
      else do
        let strs ← bufs.mapM mDecode
        pure (some (List.flatten (strs.map (fun s => s ++ [10]))))
    else do
      let bufA ← if buf = [] then readline else pure buf
      if bufA = [] then
        pure none
      else do
        let result ← mDecode bufA
        if 1 < lines then do
          mmodify fun st => { st with savbuf := some [] }
          savLoop (lines - 1).toNat result
        else
          pure (some result)

/-- Blank-skipping read loop of `check_incoming` (lines 741-746): decode the
line just read and keep reading while it is blank and more lines are
buffered. -/
def ciDrain : List Nat → List (List Nat) → Except PyErr (List Nat × List (List Nat))
  | raw, rest =>
    match convert_to_string raw with
    | none => Except.error PyErr.unicodeError
    | some buf =>
      if pyStripS buf = [] then
        match rest with
        | [] => Except.ok (buf, [])
        | r2 :: rest2 => ciDrain r2 rest2
      else Except.ok (buf, rest)

/-- Classification chain of `check_incoming` (lines 750-790), applied to a
non-empty decoded line. -/
def classifyLine (buf : List Nat) (st : St) :
    Except PyErr ((String × Payload) × St) :=
  let params := splitOnNat 44 buf
  let p0 := params.headD []
  if p0.take 14 = codes "+HTTPACTION: 1" then
    match params.get? 1 with
    | none => Except.error PyErr.indexError
    | some p1 =>
      if p1 ≠ codes "200" then Except.ok (("HTTPACTION_PUT", Payload.pfalse), st)
      else
        match params.get? 2 with
        | none => Except.error PyErr.indexError
        | some p2 =>
          if ¬ pyIsNumeric (pyStripS p2) then
            Except.ok (("HTTPACTION_PUT", Payload.pfalse), st)
          else
            Except.ok (("HTTPACTION_PUT", Payload.pint ((pyParseInt p2).getD 0)), st)
  else if p0.take 14 = codes "+HTTPACTION: 0" then
    match params.get? 1 with
    | none => Except.error PyErr.indexError
    | some p1 =>
      if p1 ≠ codes "200" ∧ p1 ≠ codes "301" then
        Except.ok (("HTTPACTION_GET", Payload.pfalse), st)
      else
        match params.get? 2 with
        | none => Except.error PyErr.indexError
        | some p2 =>
          if ¬ pyIsNumeric (pyStripS p2) then
            Except.ok (("HTTPACTION_GET", Payload.pfalse), st)
          else
            Except.ok (("HTTPACTION_GET", Payload.pint ((pyParseInt p2).getD 0)), st)
  else if p0.take 5 = codes "+CMTI" then
    match params.get? 1 with
    | none => Except.error PyErr.indexError
    | some p1 =>
      match pyParseInt p1 with
      | none => Except.error PyErr.valueError
      | some n =>
        let st2 := { st with msgid := n }
        let st3 := if st2.msg_action then { st2 with msgCalls := st2.msgCalls + 1 } else st2
        Except.ok (("CMTI", Payload.pint n), st3)
  else if p0 = codes "NO CARRIER" then
    if st.no_carrier_action then
      Except.ok (("NOCARRIER", Payload.pnone), { st with ncCalls := st.ncCalls + 1 })
    else
      Except.error PyErr.typeError
  else if p0 = codes "RING" ∨ p0.take 5 = codes "+CLIP" then
    Except.ok (("RING", Payload.pnone), st)
  else if pyStripS buf = codes "OK" then
    Except.ok (("OK", Payload.pnone), st)
  else if pyStripS buf = codes "DOWNLOAD" then
    Except.ok (("DOWNLOAD", Payload.pnone), st)
  else
    Except.ok (("GENERIC", Payload.pstr buf), st)

/-- Source `SIM800L.check_incoming` (lines 735-790). -/
def check_incoming : M (String × Payload) := fun st =>
  match st.pending with
  | [] => Except.ok (("GENERIC", Payload.pnone), st)
  | raw :: rest =>
    match ciDrain raw rest with
    | Except.error e => Except.error e
    | Except.ok (buf, rest2) =>
      let st2 := { st with pending := rest2 }
      if buf = [] then Except.ok (("GENERIC", Payload.pstr buf), st2)
      else classifyLine buf st2

/-- Result of `command_ok`: Python `True`, `"DOWNLOAD"`, `"ERROR"` or
`False`. -/
inductive CmdRes
  | tru
  | download
  | err
  | fls
deriving DecidableEq, Repr

/-- Polling loop of `command_ok` (lines 456-458): while the classification is
a falsey `GENERIC` and the deadline has not passed, sleep 100 ms and poll
again.  Each iteration advances the clock by exactly 100 ms, so the loop runs
at most `(expire - now) / 100` times plus one guard evaluation; callers pass
fuel strictly above that bound, making the fuel-exhaustion branch
unreachable. -/
def pollGeneric (expire : Nat) : Nat → (String × Payload) → M (String × Payload)
  | 0, s => pure s
  | fuel + 1, s => do
    let st ← mget
    if s.1 = "GENERIC" ∧ payloadFalsy s.2 ∧ st.now < expire then do
      pySleep 100
      let s2 ← check_incoming
      pollGeneric expire fuel s2
    else
      pure s

/-- Source `SIM800L.command_ok` (lines 430-467).  Note line 447 evaluates
`r.strip()` before the `if not r:` guard of line 453, so a `None` reply from
`command` raises `AttributeError` before the polling loop can be entered. -/
def command_ok (cmd : List Nat) (check_download : Bool := false)
    (check_error : Bool := false) (cmd_timeout : Nat := 10) : M CmdRes := do
  let ro ← command (cmd ++ [10])
  match ro with
  | none => mthrow PyErr.attributeError
  | some r =>
    if pyStripS r = codes "OK" then pure CmdRes.tru
    else if check_download ∧ pyStripS r = codes "DOWNLOAD" then pure CmdRes.download
    else if check_error ∧ pyStripS r = codes "ERROR" then pure CmdRes.err
    else if r = [] then do
      let st ← mget
      let expire := st.now + cmd_timeout * 1000
      let s ← check_incoming
      let s2 ← pollGeneric expire (cmd_timeout * 10 + 1) s
      if s2 = ("OK", Payload.pnone) then pure CmdRes.tru
      else if check_download ∧ s2 = ("DOWNLOAD", Payload.pnone) then pure CmdRes.download
      else if check_error ∧ s2 = ("ERROR", Payload.pnone) then pure CmdRes.err
      else pure CmdRes.fls
    else
      pure CmdRes.fls

/-- Result of `get_ip`: Python `False`, `None`, or the address string. -/
inductive IpRes
  | ipFalse
  | ipNone
  | ipAddr (a : List Nat)
deriving DecidableEq, Repr

/-- Source `SIM800L.get_ip` (lines 469-487). -/
def get_ip : M IpRes := do
  let r ← command (codes "AT+SAPBR=2,1\n")
  let s ← check_incoming
  if s ≠ ("OK", Payload.pnone) then
    pure IpRes.ipFalse
  else
    match r with
    | none => mthrow PyErr.attributeError
    | some rv => do
      let r1 := splitOnNat 44 rv
      let r2 := splitOnNat 58 (r1.headD [])
      match r1.get? 2 with
      | none => mthrow PyErr.indexError
      | some r12 => do
        let ip0 := pyRemove 34 r12
        let cond ← (do
          if pyStripS (r2.headD []) = codes "+SAPBR" then
            match r2.get? 1 with
            | none => mthrow PyErr.indexError
            | some r21 =>
              if pyStripS r21 = codes "1" then
                pure (pyStripS ((r1.get? 1).getD []) = codes "1")
              else pure false
          else pure false : M Bool)
        if cond then pure (IpRes.ipAddr ip0) else pure IpRes.ipNone

/-- Result of `connect_gprs`: Python `False` or the IP address string. -/
inductive CgRes
  | cgFalse
  | cgIp (a : List Nat)
deriving DecidableEq, Repr

/-- Combined context-setup / bearer-open command of `connect_gprs`
(lines 513-515). -/
def sapbrSetupCmd (apn : List Nat) : List Nat :=
  codes "AT+SAPBR=3,1,\"CONTYPE\",\"GPRS\";+SAPBR=3,1,\"APN\",\"" ++ apn ++
    codes "\";+SAPBR=1,1"

/-- Source `SIM800L.connect_gprs` (lines 496-527). -/
def connect_gprs (apn : Option (List Nat)) : M CgRes := do
  match apn with
  | none => pure CgRes.cgFalse
  | some apnv =>
    let ip ← get_ip
    match ip with
    | IpRes.ipFalse => pure CgRes.cgFalse
    | IpRes.ipNone => connect_gprs_setup apnv
    | IpRes.ipAddr a =>
      if a ≠ [] then pure (CgRes.cgIp a) else connect_gprs_setup apnv
where
  /-- Fallback arm of `connect_gprs` (lines 512-526): issue the setup command
  and re-query the IP. -/
  connect_gprs_setup (apnv : List Nat) : M CgRes := do
    let r ← command_ok (sapbrSetupCmd apnv) false true 10
    if r = CmdRes.err then pure CgRes.cgFalse
    else if r = CmdRes.fls then pure CgRes.cgFalse
    else do
      let ip2 ← get_ip
      match ip2 with
      | IpRes.ipAddr a => if a ≠ [] then pure (CgRes.cgIp a) else pure CgRes.cgFalse
      | _ => pure CgRes.cgFalse

/-- Source `SIM800L.disconnect_gprs` (lines 489-494). -/
def disconnect_gprs : M CmdRes := command_ok (codes "AT+SAPBR=0,1")

/-- Outcome of the HTTPREAD length-check phase of `http`: continue to the
payload read, or tear down and return `False`. -/
inductive HttpStep
  | proceed
  | failFalse
deriving DecidableEq, Repr

/-- Python `len_read != lr` where `len_read` came from a classifier payload
(`int` or `False`; `False == 0` in Python). -/
def payloadNeInt : Payload → Int → Bool
  | Payload.pint n, m => n ≠ m
  | Payload.pfalse, m => m ≠ 0
  | Payload.pnone, _ => true
  | Payload.pstr _, _ => true

/-- Length-check phase of `SIM800L.http` (lines 689-700): after the
`HTTPACTION` notification carried `len_read`, issue `AT+HTTPREAD`, parse the
modem's own reported length, and on a mismatch terminate the HTTP subsystem
(and, unless `keep_session`, the bearer) and return `False`; otherwise
proceed to the payload read of lines 701-733. -/
def http_length_check (keep_session : Bool) (len_read : Payload) : M HttpStep := do
  let r ← command (codes "AT+HTTPREAD\n")
  match r with
  | none => mthrow PyErr.attributeError
  | some rv => do
    let params := splitOnNat 58 rv
    if params.length = 2 ∧ params.headD [] = codes "+HTTPREAD" ∧
        pyIsNumeric (pyStripS ((params.get? 1).getD [])) then
      let lr : Int := (pyParseInt ((params.get? 1).getD [])).getD 0
      if payloadNeInt len_read lr then do
        let _ ← command (codes "AT+HTTPTERM\n")
        if ¬ keep_session then do
          let _ ← disconnect_gprs
          pure HttpStep.failFalse
        else
          pure HttpStep.failFalse
      else
        pure HttpStep.proceed
    else
      pure HttpStep.proceed

/-- NTP command string of `internet_sync_time` (line 552). -/
def cntpCmd (server : List Nat) (tzq : Int) : List Nat :=
  codes "AT+CNTP=\"" ++ server ++ codes "\"," ++ codes (toString tzq)

/-- NTP-command phase of `SIM800L.internet_sync_time` (lines 552-556): issue
the server-and-timezone command and then the bare sync trigger, each through
`command_ok`.  When the first `command_ok` yields a falsey result, line 554
executes `logging.error("...", r)` where no variable `r` is bound anywhere in
the function, raising `NameError`; the second missing acknowledgement
(line 556) logs a plain string and continues. -/
def internet_sync_time_ntp_phase (time_server : List Nat) (tzq : Int) : M Unit := do
  let r1 ← command_ok (cntpCmd time_server tzq)
  if r1 = CmdRes.fls then
    mthrow PyErr.nameError
  else do
    let _r2 ← command_ok (codes "AT+CNTP")
    pure ()

/-!
Codec lemmas.
-/

theorem tableGet_of_mem_nodup {t : List (Nat × Nat)} {k v : Nat}
    (hmem : (k, v) ∈ t) (hnd : (t.map Prod.fst).Nodup) : tableGet k t = some v := by
  induction t with
  | nil => cases hmem
  | cons hd tl ih =>
    obtain ⟨a, b⟩ := hd
    simp only [List.map_cons, List.nodup_cons] at hnd
    rcases List.mem_cons.mp hmem with heq | hmem2
    · injection heq with h1 h2
      subst h1
      subst h2
      simp [tableGet]
    · have hka : k ≠ a := by
        intro hk
        exact hnd.1 (hk ▸ (List.mem_map.mpr ⟨(k, v), hmem2, rfl⟩))
      simp only [tableGet, if_neg (by exact fun h => hka h)]
      exact ih hmem2 hnd.2

theorem tableFind_mem {t : List (Nat × Nat)} {v : Nat} {p : Nat × Nat}
    (h : tableFind v t = some p) : p ∈ t ∧ p.2 = v := by
  induction t with
  | nil => cases h
  | cons hd tl ih =>
    obtain ⟨a, b⟩ := hd
    by_cases hb : b = v
    · simp only [tableFind, if_pos hb] at h
      obtain rfl := Option.some.inj h
      exact ⟨List.mem_cons_self _ _, hb⟩
    · simp only [tableFind, if_neg hb] at h
      obtain ⟨h1, h2⟩ := ih h
      exact ⟨List.mem_cons_of_mem _ h1, h2⟩

theorem gsmBasic_keys_nodup : (gsmBasicTable.map Prod.fst).Nodup := by decide

theorem gsmExt_keys_nodup : (gsmExtTable.map Prod.fst).Nodup := by decide

theorem escape_not_basic_key : 27 ∉ gsmBasicTable.map Prod.fst := by decide

/-- Decoding undoes the one-codepoint encoding, in front of any tail. -/
theorem gsmEncodeChar_decode {u : Nat} {bs : List Nat}
    (h : gsmEncodeChar u = some bs) (rest : List Nat) :
    gsmDecode (bs ++ rest) = (gsmDecode rest).map (fun t => u :: t) := by
  unfold gsmEncodeChar at h
  cases hfb : tableFind u gsmBasicTable with
  | some p =>
    rw [hfb] at h
    obtain rfl := Option.some.inj h
    obtain ⟨hmem, hval⟩ := tableFind_mem hfb
    have hk : p.1 ≠ 27 := by
      intro hk
      exact escape_not_basic_key (hk ▸ List.mem_map.mpr ⟨p, hmem, rfl⟩)
    have hget : tableGet p.1 gsmBasicTable = some u := by
      have := tableGet_of_mem_nodup (k := p.1) (v := p.2)
        (by exact (Prod.mk.eta ▸ hmem)) gsmBasic_keys_nodup
      rw [hval] at this
      exact this
    simp only [List.nil_append, List.cons_append]
    rw [gsmDecode.eq_def]
    simp only [if_neg hk, hget]
  | none =>
    rw [hfb] at h
    cases hfe : tableFind u gsmExtTable with
    | some p =>
      rw [hfe] at h
      obtain rfl := Option.some.inj h
      obtain ⟨hmem, hval⟩ := tableFind_mem hfe
      have hget : tableGet p.1 gsmExtTable = some u := by
        have := tableGet_of_mem_nodup (k := p.1) (v := p.2)
          (by exact (Prod.mk.eta ▸ hmem)) gsmExt_keys_nodup
        rw [hval] at this
        exact this
      simp [gsmDecode, hget]
    | none =>
      rw [hfe] at h
      cases h

/-- Decoding undoes `convert_gsm`, before stripping. -/
theorem gsmDecode_convert_gsm {t bs : List Nat}
    (h : convert_gsm t = some bs) : gsmDecode bs = some t := by
  induction t generalizing bs with
  | nil =>
    obtain rfl := Option.some.inj h
    rfl
  | cons u tl ih =>
    unfold convert_gsm at h
    cases he : gsmEncodeChar u with
    | none => rw [he] at h; cases h
    | some e =>
      rw [he] at h
      cases hr : convert_gsm tl with
      | none => rw [hr] at h; cases h
      | some r =>
        rw [hr] at h
        obtain rfl := Option.some.inj h
        rw [gsmEncodeChar_decode he r, ih hr]
        rfl

/-- Encoding succeeds on alphabet-only text. -/
theorem convert_gsm_isSome {t : List Nat}
    (h : ∀ u ∈ t, inGsmAlphabet u = true) : (convert_gsm t).isSome := by
  induction t with
  | nil => rfl
  | cons u tl ih =>
    have hu : (gsmEncodeChar u).isSome := h u (List.mem_cons_self _ _)
    cases he : gsmEncodeChar u with
    | none => rw [he] at hu; cases hu
    | some e =>
      have htl := ih (fun v hv => h v (List.mem_cons_of_mem _ hv))
      cases hr : convert_gsm tl with
      | none => rw [hr] at htl; cases htl
      | some r => simp [convert_gsm, he, hr]

/-!
Strip, split and self-decoding lemmas.
-/

theorem pyStripWith_eq_rdrop (p : Nat → Bool) (l : List Nat) :
    pyStripWith p l = List.rdropWhile p (List.dropWhile p l) := by
  simp [pyStripWith, List.rdropWhile]

theorem head?_append_left {α : Type} {l1 : List α} (l2 : List α) (h : l1 ≠ []) :
    (l1 ++ l2).head? = l1.head? := by
  cases l1 with
  | nil => exact absurd rfl h
  | cons a t => rfl

theorem dropWhile_head?_not (p : Nat → Bool) (l : List Nat) {x : Nat}
    (hx : (List.dropWhile p l).head? = some x) : p x = false := by
  induction l with
  | nil => cases hx
  | cons c cs ih =>
    by_cases hc : p c
    · rw [List.dropWhile_cons_of_pos hc] at hx
      exact ih hx
    · rw [List.dropWhile_cons_of_neg hc] at hx
      obtain rfl := Option.some.inj hx
      simpa using hc

theorem dropWhile_eq_self_of_head? {p : Nat → Bool} {l : List Nat}
    (h : ∀ x, l.head? = some x → p x = false) : List.dropWhile p l = l := by
  cases l with
  | nil => rfl
  | cons c cs => exact List.dropWhile_cons_of_neg (by simp [h c rfl])

theorem rdropWhile_eq_self_of_getLast? {p : Nat → Bool} {l : List Nat}
    (h : ∀ x, l.getLast? = some x → p x = false) : List.rdropWhile p l = l := by
  rw [List.rdropWhile,
    dropWhile_eq_self_of_head? (fun x hx => h x (by rwa [List.head?_reverse] at hx))]
  exact List.reverse_reverse l

theorem rdropWhile_getLast?_not (p : Nat → Bool) (l : List Nat) {x : Nat}
    (hx : (List.rdropWhile p l).getLast? = some x) : p x = false := by
  rw [List.rdropWhile, List.getLast?_reverse] at hx
  exact dropWhile_head?_not p l.reverse hx

/-- A list whose first and last elements are not stripped is left unchanged by
Python strip. -/
theorem pyStripWith_no_edge {p : Nat → Bool} {l : List Nat}
    (hhead : ∀ x, l.head? = some x → p x = false)
    (hlast : ∀ x, l.getLast? = some x → p x = false) :
    pyStripWith p l = l := by
  rw [pyStripWith_eq_rdrop, dropWhile_eq_self_of_head? hhead,
    rdropWhile_eq_self_of_getLast? hlast]

/-- Python strip is idempotent. -/
theorem pyStripWith_idem (p : Nat → Bool) (l : List Nat) :
    pyStripWith p (pyStripWith p l) = pyStripWith p l := by
  rw [pyStripWith_eq_rdrop p l]
  apply pyStripWith_no_edge
  · intro x hx
    obtain ⟨t, ht⟩ := List.rdropWhile_prefix p (List.dropWhile p l)
    have hne : List.rdropWhile p (List.dropWhile p l) ≠ [] := by
      intro hnil
      rw [hnil] at hx
      cases hx
    have hh : (List.dropWhile p l).head? = some x := by
      rw [← ht, head?_append_left _ hne]
      exact hx
    exact dropWhile_head?_not p l hh
  · intro x hx
    exact rdropWhile_getLast?_not p _ hx

/-- Stripped output of `convert_to_string` is a fixpoint of stripping. -/
theorem convert_to_string_stripped {raw l : List Nat}
    (h : convert_to_string raw = some l) : pyStripS l = l := by
  unfold convert_to_string at h
  cases hg : gsmDecode raw with
  | some s =>
    rw [hg] at h
    obtain rfl := Option.some.inj h
    exact pyStripWith_idem _ _
  | none =>
    rw [hg] at h
    cases hg2 : gsmDecode (substituteHigh raw) with
    | none => rw [hg2] at h; cases h
    | some s =>
      rw [hg2] at h
      obtain rfl := Option.some.inj h
      exact pyStripWith_idem _ _

theorem splitOnNat_ne_nil (sep : Nat) (l : List Nat) : splitOnNat sep l ≠ [] := by
  cases l with
  | nil => simp [splitOnNat]
  | cons c rest =>
    unfold splitOnNat
    cases h : splitOnNat sep rest with
    | nil => simp
    | cons p ps =>
      by_cases hc : c = sep <;> simp [hc]

theorem splitOnNat_cons_sep (sep : Nat) (m : List Nat) :
    splitOnNat sep (sep :: m) = [] :: splitOnNat sep m := by
  cases h : splitOnNat sep m with
  | nil => exact absurd h (splitOnNat_ne_nil sep m)
  | cons p ps =>
    conv_lhs => rw [splitOnNat.eq_def]
    simp [h]

/-- Splitting a separator-free prefix followed by the rest. -/
theorem splitOnNat_append_no_sep {sep : Nat} {l : List Nat}
    (hl : ∀ b ∈ l, b ≠ sep) (m : List Nat) :
    splitOnNat sep (l ++ m) =
      match splitOnNat sep m with
      | [] => [l]
      | p :: ps => (l ++ p) :: ps := by
  induction l with
  | nil =>
    cases h : splitOnNat sep m with
    | nil => exact absurd h (splitOnNat_ne_nil sep m)
    | cons p ps => simpa using h
  | cons c rest ih =>
    have hc : c ≠ sep := hl c (List.mem_cons_self _ _)
    have ih2 := ih (fun b hb => hl b (List.mem_cons_of_mem _ hb))
    cases h : splitOnNat sep m with
    | nil => exact absurd h (splitOnNat_ne_nil sep m)
    | cons p ps =>
      rw [h] at ih2
      conv_lhs => rw [List.cons_append, splitOnNat.eq_def]
      simp [ih2, hc]

/-- Splitting a separator-free list. -/
theorem splitOnNat_no_sep {sep : Nat} {l : List Nat}
    (hl : ∀ b ∈ l, b ≠ sep) : splitOnNat sep l = [l] := by
  have := splitOnNat_append_no_sep hl []
  simpa [splitOnNat] using this

/-- Bytes that decode to themselves through the basic GSM table. -/
def SelfCode (b : Nat) : Prop := b ≠ 27 ∧ tableGet b gsmBasicTable = some b

instance (b : Nat) : Decidable (SelfCode b) := by
  unfold SelfCode
  infer_instance

/-- A self-coding prefix passes through the decoder unchanged. -/
theorem gsmDecode_selfCode_append {l : List Nat} (h : ∀ b ∈ l, SelfCode b)
    (rest : List Nat) :
    gsmDecode (l ++ rest) = (gsmDecode rest).map (fun t => l ++ t) := by
  induction l with
  | nil =>
    simp only [List.nil_append]
    cases hg : gsmDecode rest <;> simp [hg]
  | cons c cs ih =>
    obtain ⟨hc27, hcget⟩ := h c (List.mem_cons_self _ _)
    have ih2 := ih (fun b hb => h b (List.mem_cons_of_mem _ hb))
    simp only [List.cons_append]
    rw [gsmDecode.eq_def]
    simp only [if_neg hc27, hcget, ih2]
    cases gsmDecode rest <;> simp

/-- A self-coding list decodes to itself. -/
theorem gsmDecode_selfCode {l : List Nat} (h : ∀ b ∈ l, SelfCode b) :
    gsmDecode l = some l := by
  have := gsmDecode_selfCode_append h []
  simpa [gsmDecode] using this

/-- Well-formedness of the escape structure of a (low-byte) GSM sequence:
every 0x1B escape byte is followed by an extension-table byte. -/
def escapeOk : List Nat → Bool
  | [] => true
  | b :: rest =>
    if b = 27 then
      match rest with
      | [] => false
      | e :: rest2 => (tableGet e gsmExtTable).isSome && escapeOk rest2
    else escapeOk rest

theorem substituteHigh_low (buf : List Nat) : ∀ b ∈ substituteHigh buf, b ≤ 127 := by
  intro b hb
  obtain ⟨a, _, rfl⟩ := List.mem_map.mp hb
  by_cases ha : 127 < a
  · simp only [if_pos ha]
    omega
  · simp only [if_neg ha]
    omega

theorem lowByteHasBasic : ∀ b ∈ List.range 128, b = 27 ∨ (tableGet b gsmBasicTable).isSome := by
  decide

/-- Decoding succeeds on low-byte sequences with well-formed escapes. -/
theorem gsmDecode_isSome_of_escapeOk :
    (l : List Nat) → (∀ b ∈ l, b ≤ 127) → escapeOk l = true → (gsmDecode l).isSome
  | [], _, _ => by simp [gsmDecode]
  | b :: rest, hlow, hesc => by
    by_cases hb : b = 27
    · subst hb
      cases rest with
      | nil => simp [escapeOk] at hesc
      | cons e rest2 =>
        have h1 : ((tableGet e gsmExtTable).isSome && escapeOk rest2) = true := by
          simpa [escapeOk] using hesc
        obtain ⟨he, hr⟩ := Bool.and_eq_true_iff.mp h1
        have ih := gsmDecode_isSome_of_escapeOk rest2
          (fun x hx => hlow x (by simp [hx])) hr
        cases hg : tableGet e gsmExtTable with
        | none => rw [hg] at he; cases he
        | some u =>
          cases hd : gsmDecode rest2 with
          | none => rw [hd] at ih; cases ih
          | some t => simp [gsmDecode, hg, hd]
    · have hble : b ≤ 127 := hlow b (List.mem_cons_self _ _)
      have hbasic : (tableGet b gsmBasicTable).isSome := by
        rcases lowByteHasBasic b (List.mem_range.mpr (by omega)) with h | h
        · exact absurd h hb
        · exact h
      have hr : escapeOk rest = true := by
        rw [escapeOk.eq_def] at hesc
        simpa [hb] using hesc
      have ih := gsmDecode_isSome_of_escapeOk rest
        (fun x hx => hlow x (by simp [hx])) hr
      cases hg : tableGet b gsmBasicTable with
      | none => rw [hg] at hbasic; cases hbasic
      | some u =>
        cases hd : gsmDecode rest with
        | none => rw [hd] at ih; cases ih
        | some t =>
          rw [gsmDecode.eq_def]
          simp [hb, hg, hd]

/-- Bytes allowed in a modelled IP-address string: ASCII digits and the dot. -/
def goodIpByte (b : Nat) : Bool := (48 ≤ b && b ≤ 57) || b = 46

theorem goodIpByte_facts {b : Nat} (h : goodIpByte b = true) :
    SelfCode b ∧ isWsByte b = false ∧ isWsStr b = false ∧ b ≠ 44 ∧ b ≠ 34 ∧ b ≠ 58 := by
  have h2 : (48 ≤ b ∧ b ≤ 57) ∨ b = 46 := by
    simpa [goodIpByte, Bool.or_eq_true, Bool.and_eq_true, decide_eq_true_iff] using h
  rcases h2 with ⟨h3, h4⟩ | rfl
  · interval_cases b <;> refine ⟨⟨by decide, by decide⟩, by decide, by decide, by decide, by decide, by decide⟩
  · exact ⟨⟨by decide, by decide⟩, by decide, by decide, by decide, by decide, by decide⟩

/-- Base session state used by the concrete scenarios: empty serial buffer, no
reply script, clock at zero, 3-second serial timeout (the constructor
default), no callbacks registered. -/
def baseSt : St :=
  { pending := [], script := [], written := [], now := 0, sertimeout := 3000,
    msgid := 0, msg_action := false, no_carrier_action := false, msgCalls := 0,
    ncCalls := 0, savbuf := none }

instance {ε α : Type} [DecidableEq ε] [DecidableEq α] : DecidableEq (Except ε α) := fun x y =>
  match x, y with
  | Except.error a, Except.error b =>
    if h : a = b then Decidable.isTrue (by rw [h])
    else Decidable.isFalse (by intro hc; injection hc with h2; exact h h2)
  | Except.error _, Except.ok _ => Decidable.isFalse (by intro hc; cases hc)
  | Except.ok _, Except.error _ => Decidable.isFalse (by intro hc; cases hc)
  | Except.ok a, Except.ok b =>
    if h : a = b then Decidable.isTrue (by rw [h])
    else Decidable.isFalse (by intro hc; injection hc with h2; exact h h2)

/-!
Claim theorems.
-/

/-- C2: the claim states that whenever the immediate single-line read of
`command_ok` produces nothing, the operation does not fail or raise but enters
the 100 ms polling loop.  In the code, `command` returns `None` when the read
produces nothing, and line 447 evaluates `r.strip()` before the `if not r:`
guard of line 453, so the call raises `AttributeError` immediately: with a
silent modem (empty reply script), the embedded `command_ok` raises instead
of polling. -/
theorem command_ok_none_reply_raises :
    command_ok (codes "AT+CFUN?") false false 10 baseSt =
      Except.error PyErr.attributeError := by
  decide

/-- C3: the claim states that when the `AT+CNTP="server",tz` command is not
acknowledged, `internet_sync_time` logs and continues with the bare `AT+CNTP`.
In the code, line 554 logs with the name `r`, which is bound nowhere in the
function, so the call raises `NameError` instead: here the modem answers the
NTP command with an inline `+CME ERROR: 3` line, `command_ok` returns `False`,
and the phase raises. -/
theorem internet_sync_time_missing_ack_raises :
    internet_sync_time_ntp_phase (codes "193.204.114.232") 4
        { baseSt with script := [[codes "+CME ERROR: 3"]] } =
      Except.error PyErr.nameError := by
  decide

/-- C8: the claim states that a command that never elicits OK/ERROR/DOWNLOAD
makes `command_ok` return `False` within `cmd_timeout` seconds (plus one
polling interval).  When the modem never replies at all — the strongest form
of never eliciting a reply — `command` returns `None` and line 447 raises
`AttributeError`, so `command_ok` terminates by an exception instead of
returning `False`. -/
theorem command_ok_silent_modem_crashes :
    command_ok (codes "AT+CREG?") false false 5 baseSt =
      Except.error PyErr.attributeError := by
  decide

/-- C4 counterexample: the claim states the codec round-trip
`convert_to_string (convert_gsm t) = t` for every `t` inside the alphabet.
For `t = "a "` (both characters in the GSM 03.38 alphabet) the decode side
strips the trailing blank, returning `"a"` instead of `"a "`. -/
theorem codec_roundtrip_counterexample :
    (∀ u ∈ ([97, 32] : List Nat), inGsmAlphabet u = true) ∧
    (convert_gsm [97, 32]).bind convert_to_string = some [97] ∧
    ([97] : List Nat) ≠ [97, 32] := by
  decide

/-- C4 (amended): for text inside the supported GSM 03.38 alphabet and with no
leading or trailing whitespace (so that the decoder's strip is the identity),
decoding the encoding returns the text exactly. -/
theorem codec_roundtrip (t : List Nat) (halpha : ∀ u ∈ t, inGsmAlphabet u = true)
    (hstrip : pyStripS t = t) :
    (convert_gsm t).bind convert_to_string = some t := by
  have hsome := convert_gsm_isSome halpha
  cases he : convert_gsm t with
  | none => rw [he] at hsome; cases hsome
  | some bs =>
    have hd := gsmDecode_convert_gsm he
    simp [Option.bind, convert_to_string, hd, hstrip]

/-- C4 witness: the amended round-trip at the concrete text `"Hello"`. -/
theorem codec_roundtrip_witness :
    (∀ u ∈ codes "Hello", inGsmAlphabet u = true) ∧
    pyStripS (codes "Hello") = codes "Hello" ∧
    (convert_gsm (codes "Hello")).bind convert_to_string = some (codes "Hello") :=
  ⟨by decide, by decide, codec_roundtrip (codes "Hello") (by decide) (by decide)⟩

/-- C7 counterexample: the claim states that for every byte sequence holding a
value above 127 whose direct decode fails, substituting those bytes with `#`
makes the second decode succeed.  The sequence `0x1B 0x80` contains the byte
128 > 127 and fails to decode, but its substitution `0x1B 0x23` is an
ill-formed escape (0x23 is not in the extension table), so the second decode
fails as well and `convert_to_string` raises past the boundary (`none`). -/
theorem codec_fallback_counterexample :
    (127 < 128 ∧ 128 ∈ ([27, 128] : List Nat)) ∧
    gsmDecode [27, 128] = none ∧
    convert_to_string [27, 128] = none := by
  decide

/-- C7 (amended): for a byte sequence containing values above 127 whose direct
decode fails, `convert_to_string` substitutes every byte above 127 with `#`
and retries exactly once; the second decode succeeds (and text is returned
without raising) whenever the substituted sequence has a well-formed escape
structure — the substitution repairs out-of-range bytes but cannot repair an
escape byte followed by a non-extension byte. -/
theorem codec_fallback (buf : List Nat) (_hhigh : ∃ b ∈ buf, 127 < b)
    (hfail : gsmDecode buf = none)
    (hesc : escapeOk (substituteHigh buf) = true) :
    convert_to_string buf = (gsmDecode (substituteHigh buf)).map pyStripS ∧
    (gsmDecode (substituteHigh buf)).isSome := by
  refine ⟨?_, gsmDecode_isSome_of_escapeOk _ (substituteHigh_low buf) hesc⟩
  unfold convert_to_string
  rw [hfail]

/-- C7 witness: the amended fallback at the concrete byte sequence `[200]`,
whose substitution decodes to `"#"`. -/
theorem codec_fallback_witness :
    ((∃ b ∈ ([200] : List Nat), 127 < b) ∧ gsmDecode [200] = none ∧
      escapeOk (substituteHigh [200]) = true) ∧
    convert_to_string [200] = (gsmDecode (substituteHigh [200])).map pyStripS ∧
    (gsmDecode (substituteHigh [200])).isSome :=
  ⟨⟨by decide, by decide, by decide⟩,
    codec_fallback [200] (by decide) (by decide) (by decide)⟩

/-- Evaluation of the classifier chain on the literal line `NO CARRIER`, for
an arbitrary session state: every branch before the `NO CARRIER` test is
concrete and fails, leaving only the callback dispatch. -/
theorem classifyLine_no_carrier (st : St) :
    classifyLine (codes "NO CARRIER") st =
      if st.no_carrier_action then
        Except.ok (("NOCARRIER", Payload.pnone), { st with ncCalls := st.ncCalls + 1 })
      else Except.error PyErr.typeError := rfl

/-- C9 counterexample: the claim states the classifier returns the
`('NOCARRIER', None)` notification for a `NO CARRIER` line on every session,
including one with no registered carrier-lost callback.  With no callback
registered, line 777 calls `self.no_carrier_action()` on `None` and raises
`TypeError`. -/
theorem no_carrier_counterexample :
    check_incoming { baseSt with pending := [codes "NO CARRIER"] } =
      Except.error PyErr.typeError := by
  decide

/-- C9 (amended): for every buffered line decoding to exactly `NO CARRIER`,
the classifier invokes the carrier-lost callback and returns
`('NOCARRIER', None)` when a callback is registered; on a session with no
registered callback it instead raises `TypeError` (calling `None`). -/
theorem no_carrier_classification (st : St) (raw : List Nat) (rest : List (List Nat))
    (hp : st.pending = raw :: rest)
    (hd : convert_to_string raw = some (codes "NO CARRIER")) :
    (st.no_carrier_action = true →
      check_incoming st =
        Except.ok (("NOCARRIER", Payload.pnone),
          { st with pending := rest, ncCalls := st.ncCalls + 1 })) ∧
    (st.no_carrier_action = false → check_incoming st = Except.error PyErr.typeError) := by
  have hdrain : ciDrain raw rest = Except.ok (codes "NO CARRIER", rest) := by
    rw [ciDrain, hd]
    exact if_neg (by decide)
  have hne : (codes "NO CARRIER" : List Nat) ≠ [] := by decide
  have hrun : check_incoming st = classifyLine (codes "NO CARRIER") { st with pending := rest } := by
    simp only [check_incoming, hp, hdrain, if_neg hne]
  rw [hrun, classifyLine_no_carrier]
  constructor <;> intro hflag <;> simp [hflag]

/-- C9 witness: the amended classification at a concrete session holding the
raw `NO CARRIER` line with a registered carrier-lost callback. -/
theorem no_carrier_classification_witness :
    ({ baseSt with pending := [codes "NO CARRIER"], no_carrier_action := true } : St).pending =
        codes "NO CARRIER" :: [] ∧
    convert_to_string (codes "NO CARRIER") = some (codes "NO CARRIER") ∧
    check_incoming { baseSt with pending := [codes "NO CARRIER"], no_carrier_action := true } =
      Except.ok (("NOCARRIER", Payload.pnone),
        { baseSt with pending := [], no_carrier_action := true, ncCalls := 1 }) := by
  refine ⟨rfl, by decide, ?_⟩
  have h := (no_carrier_classification
    { baseSt with pending := [codes "NO CARRIER"], no_carrier_action := true }
    (codes "NO CARRIER") [] rfl (by decide)).1 rfl
  exact h

/-- Bridge from `check_incoming` to the classification chain: with a buffered
line that decodes to the non-blank text `l`, the classifier runs on `l` with
the line consumed. -/
theorem check_incoming_classify (st : St) (raw l : List Nat) (rest : List (List Nat))
    (hp : st.pending = raw :: rest) (hd : convert_to_string raw = some l)
    (hne : l ≠ []) :
    check_incoming st = classifyLine l { st with pending := rest } := by
  have hs : pyStripS l = l := convert_to_string_stripped hd
  have hdrain : ciDrain raw rest = Except.ok (l, rest) := by
    rw [ciDrain, hd]
    exact if_neg (by rw [hs]; exact hne)
  simp only [check_incoming, hp, hdrain, if_neg hne]

/-- First branch of the classification chain (`+HTTPACTION: 1` prefix,
source lines 752-758). -/
theorem classifyLine_put (l : List Nat) (st : St)
    (h1 : ((splitOnNat 44 l).headD []).take 14 = codes "+HTTPACTION: 1") :
    classifyLine l st =
      match (splitOnNat 44 l).get? 1 with
      | none => Except.error PyErr.indexError
      | some p1 =>
        if p1 ≠ codes "200" then Except.ok (("HTTPACTION_PUT", Payload.pfalse), st)
        else
          match (splitOnNat 44 l).get? 2 with
          | none => Except.error PyErr.indexError
          | some p2 =>
            if ¬ pyIsNumeric (pyStripS p2) then
              Except.ok (("HTTPACTION_PUT", Payload.pfalse), st)
            else
              Except.ok (("HTTPACTION_PUT", Payload.pint ((pyParseInt p2).getD 0)), st) := by
  simp only [classifyLine, if_pos h1]

/-- Second branch of the classification chain (`+HTTPACTION: 0` prefix,
source lines 760-768). -/
theorem classifyLine_get (l : List Nat) (st : St)
    (h1 : ((splitOnNat 44 l).headD []).take 14 ≠ codes "+HTTPACTION: 1")
    (h0 : ((splitOnNat 44 l).headD []).take 14 = codes "+HTTPACTION: 0") :
    classifyLine l st =
      match (splitOnNat 44 l).get? 1 with
      | none => Except.error PyErr.indexError
      | some p1 =>
        if p1 ≠ codes "200" ∧ p1 ≠ codes "301" then
          Except.ok (("HTTPACTION_GET", Payload.pfalse), st)
        else
          match (splitOnNat 44 l).get? 2 with
          | none => Except.error PyErr.indexError
          | some p2 =>
            if ¬ pyIsNumeric (pyStripS p2) then
              Except.ok (("HTTPACTION_GET", Payload.pfalse), st)
            else
              Except.ok (("HTTPACTION_GET", Payload.pint ((pyParseInt p2).getD 0)), st) := by
  simp only [classifyLine, if_neg h1, if_pos h0]

/-- C6 counterexample: the claim states the classifier maps every line with
the `+HTTPACTION: 0` prefix whose count field is not purely numeric to a GET
result with a falsey status.  The line `+HTTPACTION: 0,200` (status accepted,
byte-count field absent) instead raises `IndexError` at `params[2]`
(line 766). -/
theorem httpaction_counterexample :
    check_incoming { baseSt with pending := [codes "+HTTPACTION: 0,200"] } =
      Except.error PyErr.indexError := by
  decide

/-- C6 (amended): for every buffered line, the classifier maps a line whose
prefix is `+HTTPACTION: 1` to a PUT result carrying the integer byte count
exactly when the status field is `200` and the count field is purely numeric,
to a PUT result with falsey status when the status field is present but not
`200` or the count field is present but not numeric, and raises `IndexError`
when the inspected field is missing; likewise for the `+HTTPACTION: 0` prefix
with accepted statuses `200` and `301`. -/
theorem httpaction_classification (st : St) (raw l : List Nat) (rest : List (List Nat))
    (hp : st.pending = raw :: rest) (hd : convert_to_string raw = some l)
    (hne : l ≠ []) :
    (((splitOnNat 44 l).headD []).take 14 = codes "+HTTPACTION: 1" →
      ((splitOnNat 44 l).get? 1 = none →
        check_incoming st = Except.error PyErr.indexError) ∧
      (∀ p1, (splitOnNat 44 l).get? 1 = some p1 → p1 ≠ codes "200" →
        check_incoming st =
          Except.ok (("HTTPACTION_PUT", Payload.pfalse), { st with pending := rest })) ∧
      ((splitOnNat 44 l).get? 1 = some (codes "200") →
        (splitOnNat 44 l).get? 2 = none →
        check_incoming st = Except.error PyErr.indexError) ∧
      (∀ p2, (splitOnNat 44 l).get? 1 = some (codes "200") →
        (splitOnNat 44 l).get? 2 = some p2 → pyIsNumeric (pyStripS p2) = false →
        check_incoming st =
          Except.ok (("HTTPACTION_PUT", Payload.pfalse), { st with pending := rest })) ∧
      (∀ p2, (splitOnNat 44 l).get? 1 = some (codes "200") →
        (splitOnNat 44 l).get? 2 = some p2 → pyIsNumeric (pyStripS p2) = true →
        check_incoming st =
          Except.ok (("HTTPACTION_PUT", Payload.pint ((pyParseInt p2).getD 0)),
            { st with pending := rest }))) ∧
    (((splitOnNat 44 l).headD []).take 14 ≠ codes "+HTTPACTION: 1" →
      ((splitOnNat 44 l).headD []).take 14 = codes "+HTTPACTION: 0" →
      ((splitOnNat 44 l).get? 1 = none →
        check_incoming st = Except.error PyErr.indexError) ∧
      (∀ p1, (splitOnNat 44 l).get? 1 = some p1 → p1 ≠ codes "200" →
        p1 ≠ codes "301" →
        check_incoming st =
          Except.ok (("HTTPACTION_GET", Payload.pfalse), { st with pending := rest })) ∧
      (∀ p1, (splitOnNat 44 l).get? 1 = some p1 →
        (p1 = codes "200" ∨ p1 = codes "301") → (splitOnNat 44 l).get? 2 = none →
        check_incoming st = Except.error PyErr.indexError) ∧
      (∀ p1 p2, (splitOnNat 44 l).get? 1 = some p1 →
        (p1 = codes "200" ∨ p1 = codes "301") → (splitOnNat 44 l).get? 2 = some p2 →
        pyIsNumeric (pyStripS p2) = false →
        check_incoming st =
          Except.ok (("HTTPACTION_GET", Payload.pfalse), { st with pending := rest })) ∧
      (∀ p1 p2, (splitOnNat 44 l).get? 1 = some p1 →
        (p1 = codes "200" ∨ p1 = codes "301") → (splitOnNat 44 l).get? 2 = some p2 →
        pyIsNumeric (pyStripS p2) = true →
        check_incoming st =
          Except.ok (("HTTPACTION_GET", Payload.pint ((pyParseInt p2).getD 0)),
            { st with pending := rest }))) := by
  have hrun := check_incoming_classify st raw l rest hp hd hne
  constructor
  · intro h1
    have hput := classifyLine_put l { st with pending := rest } h1
    refine ⟨?_, ?_, ?_, ?_, ?_⟩
    · intro hg1
      rw [hrun, hput]
      simp only [hg1]
    · intro p1 hg1 hne1
      rw [hrun, hput]
      simp only [hg1, if_pos hne1]
    · intro hg1 hg2
      rw [hrun, hput]
      simp only [hg1, hg2]
      rw [if_neg (by simp)]
    · intro p2 hg1 hg2 hnum
      rw [hrun, hput]
      simp only [hg1, hg2, hnum]
      rw [if_neg (by simp)]
      simp
    · intro p2 hg1 hg2 hnum
      rw [hrun, hput]
      simp only [hg1, hg2, hnum]
      rw [if_neg (by simp)]
      simp
  · intro h1 h0
    have hget := classifyLine_get l { st with pending := rest } h1 h0
    refine ⟨?_, ?_, ?_, ?_, ?_⟩
    · intro hg1
      rw [hrun, hget]
      simp only [hg1]
    · intro p1 hg1 hne1 hne2
      rw [hrun, hget]
      simp only [hg1, if_pos (And.intro hne1 hne2)]
    · intro p1 hg1 hor hg2
      rw [hrun, hget]
      simp only [hg1, hg2]
      rw [if_neg (by rcases hor with rfl | rfl <;> simp)]
    · intro p1 p2 hg1 hor hg2 hnum
      rw [hrun, hget]
      simp only [hg1, hg2, hnum]
      rw [if_neg (by rcases hor with rfl | rfl <;> simp)]
      simp
    · intro p1 p2 hg1 hor hg2 hnum
      rw [hrun, hget]
      simp only [hg1, hg2, hnum]
      rw [if_neg (by rcases hor with rfl | rfl <;> simp)]
      simp

/-- C6 witness: the amended mapping at two concrete lines — a successful GET
action result carrying the byte count 5, and a PUT action result with a
rejected status mapped to the falsey variant. -/
theorem httpaction_classification_witness :
    check_incoming { baseSt with pending := [codes "+HTTPACTION: 0,200,5"] } =
      Except.ok (("HTTPACTION_GET", Payload.pint 5), baseSt) ∧
    check_incoming { baseSt with pending := [codes "+HTTPACTION: 1,404,3"] } =
      Except.ok (("HTTPACTION_PUT", Payload.pfalse), baseSt) := by
  constructor
  · have h := ((httpaction_classification
      { baseSt with pending := [codes "+HTTPACTION: 0,200,5"] }
      (codes "+HTTPACTION: 0,200,5") (codes "+HTTPACTION: 0,200,5") [] rfl
      (by decide) (by decide)).2 (by decide) (by decide)).2.2.2.2
      (codes "200") (codes "5") (by decide) (Or.inl rfl) (by decide) (by decide)
    have e : ((pyParseInt (codes "5")).getD 0 : Int) = 5 := by decide
    rw [e] at h
    exact h
  · have h := ((httpaction_classification
      { baseSt with pending := [codes "+HTTPACTION: 1,404,3"] }
      (codes "+HTTPACTION: 1,404,3") (codes "+HTTPACTION: 1,404,3") [] rfl
      (by decide) (by decide)).1 (by decide)).2.1
      (codes "404") (by decide) (by decide)
    exact h

/-- C10: with expected line count 0, `command` returns `None` immediately
after writing only the encoded command string (source lines 350-351): the
inline payload and the trailing 0x1A byte are never written even when
`msgtext` is supplied, no read is performed, and no time passes (the write log
gains exactly the one encoded command; the clock field is unchanged). -/
theorem command_fire_and_forget (cmdstr enc : List Nat) (waitfor : Nat)
    (msgtext : Option (List Nat)) (flush_input : Bool) (st : St)
    (henc : convert_gsm cmdstr = some enc) :
    command cmdstr 0 waitfor msgtext flush_input st =
      Except.ok (none,
        { st with
          pending := (if flush_input then [] else st.pending) ++ st.script.headD [],
          script := st.script.tail,
          written := st.written ++ [enc] }) := by
  cases flush_input <;>
    simp [command, mEncode, henc, flushInput, mbind, mret, serWrite, mmodify]

/-- C10 witness: the fire-and-forget path at a concrete command with a
supplied `msgtext`, junk in the buffer and a scripted reply: only the encoded
command is written. -/
theorem command_fire_and_forget_witness :
    convert_gsm (codes "AT+CMGD=1\n") = some (codes "AT+CMGD=1\n") ∧
    command (codes "AT+CMGD=1\n") 0 5000 (some (codes "msg")) true
        { baseSt with pending := [codes "junk"], script := [[codes "OK"]] } =
      Except.ok (none,
        { baseSt with pending := [codes "OK"], script := [], written := [codes "AT+CMGD=1\n"] }) := by
  refine ⟨by decide, ?_⟩
  have h := command_fire_and_forget (codes "AT+CMGD=1\n") (codes "AT+CMGD=1\n")
    5000 (some (codes "msg")) true
    { baseSt with pending := [codes "junk"], script := [[codes "OK"]] }
    (by decide)
  simpa using h

/-- C1 counterexample: the claim states that when the `AT+HTTPREAD` reported
length differs from the `HTTPACTION` length the operation logs but proceeds to
read the payload.  With the action result carrying 5 and the modem reporting
`+HTTPREAD: 3`, the embedded phase instead issues `AT+HTTPTERM` and returns
`False` (lines 694-700). -/
theorem http_length_mismatch_counterexample :
    (http_length_check true (Payload.pint 5)
        { baseSt with script := [[codes "+HTTPREAD: 3"]] }).map
      (fun p => (p.1, p.2.written)) =
      Except.ok (HttpStep.failFalse,
        [codes "AT+HTTPREAD\n", codes "AT+HTTPTERM\n"]) := by
  decide

/-- C1 (amended): whenever the length reported by the `AT+HTTPREAD` query
parses and differs from the length carried by the matching `HTTPACTION`
notification, `http` logs the discrepancy and aborts: it issues `AT+HTTPTERM`,
then — unless `keep_session` — disconnects the bearer with `AT+SAPBR=0,1`, and
returns `False` instead of proceeding to the payload read.  Stated for both
values of `keep_session` over an arbitrary session whose next reply line is
the `+HTTPREAD` report; the modem acknowledges the bearer disconnect with
`OK`. -/
theorem http_length_mismatch_aborts (ks : Bool) (st : St) (reply dv sv : List Nat)
    (len_read : Int)
    (hscript : st.script = [[reply], [], [codes "OK"]])
    (hb : pyStripB reply ≠ [])
    (hd : convert_to_string (pyStripB reply) = some dv)
    (hsplit : splitOnNat 58 dv = [codes "+HTTPREAD", sv])
    (hnum : pyIsNumeric (pyStripS sv) = true)
    (hmm : len_read ≠ (pyParseInt sv).getD 0) :
    (http_length_check ks (Payload.pint len_read) st).map
        (fun p => (p.1, p.2.written)) =
      Except.ok (HttpStep.failFalse,
        st.written ++
          if ks then [codes "AT+HTTPREAD\n", codes "AT+HTTPTERM\n"]
          else [codes "AT+HTTPREAD\n", codes "AT+HTTPTERM\n",
            codes "AT+SAPBR=0,1\n"]) := by
  have e1 : convert_gsm (codes "AT+HTTPREAD\n") = some (codes "AT+HTTPREAD\n") := by
    decide
  have e2 : convert_gsm (codes "AT+HTTPTERM\n") = some (codes "AT+HTTPTERM\n") := by
    decide
  have e3 : convert_gsm (codes "AT+SAPBR=0,1" ++ [10]) =
      some (codes "AT+SAPBR=0,1\n") := by
    decide
  have hsb : pyStripB ([] : List Nat) = [] := rfl
  have hokb : pyStripB (codes "OK") = codes "OK" := rfl
  have hoks : pyStripS (codes "OK") = codes "OK" := rfl
  have hokc : convert_to_string (codes "OK") = some (codes "OK") := by decide
  have hokne : (codes "OK" : List Nat) ≠ [] := by decide
  cases ks <;>
    simp [http_length_check, command, command_ok, disconnect_gprs, mEncode,
      mDecode, e1, e2, e3, flushInput, mbind, mret, mmodify, serWrite, readline,
      hscript, hb, hd, hsplit, hnum, payloadNeInt, hmm, mthrow, mget, pySleep,
      hsb, hokb, hoks, hokc, hokne, Except.map]

/-- C1 witness: the amended abort at a concrete mismatch (action result 7,
modem report 12), exercised on both `keep_session` arms — with
`keep_session = false` the bearer-disconnect command is written as well. -/
theorem http_length_mismatch_aborts_witness :
    (({ baseSt with
          script := [[codes "+HTTPREAD: 12"], [], [codes "OK"]] } : St).script =
        [[codes "+HTTPREAD: 12"], [], [codes "OK"]] ∧
      pyStripB (codes "+HTTPREAD: 12") ≠ [] ∧
      convert_to_string (pyStripB (codes "+HTTPREAD: 12")) =
        some (codes "+HTTPREAD: 12") ∧
      splitOnNat 58 (codes "+HTTPREAD: 12") = [codes "+HTTPREAD", codes " 12"] ∧
      pyIsNumeric (pyStripS (codes " 12")) = true ∧
      (7 : Int) ≠ (pyParseInt (codes " 12")).getD 0) ∧
    (http_length_check false (Payload.pint 7)
        { baseSt with
          script := [[codes "+HTTPREAD: 12"], [], [codes "OK"]] }).map
        (fun p => (p.1, p.2.written)) =
      Except.ok (HttpStep.failFalse,
        [codes "AT+HTTPREAD\n", codes "AT+HTTPTERM\n", codes "AT+SAPBR=0,1\n"]) ∧
    (http_length_check true (Payload.pint 7)
        { baseSt with
          script := [[codes "+HTTPREAD: 12"], [], [codes "OK"]] }).map
        (fun p => (p.1, p.2.written)) =
      Except.ok (HttpStep.failFalse,
        [codes "AT+HTTPREAD\n", codes "AT+HTTPTERM\n"]) := by
  refine ⟨⟨rfl, by decide, by decide, by decide, by decide, by decide⟩, ?_, ?_⟩
  · have h := http_length_mismatch_aborts false
      { baseSt with script := [[codes "+HTTPREAD: 12"], [], [codes "OK"]] }
      (codes "+HTTPREAD: 12") (codes "+HTTPREAD: 12") (codes " 12") 7
      rfl (by decide) (by decide) (by decide) (by decide) (by decide)
    simpa using h
  · have h := http_length_mismatch_aborts true
      { baseSt with script := [[codes "+HTTPREAD: 12"], [], [codes "OK"]] }
      (codes "+HTTPREAD: 12") (codes "+HTTPREAD: 12") (codes " 12") 7
      rfl (by decide) (by decide) (by decide) (by decide) (by decide)
    simpa using h

/-- Reply line of the `AT+SAPBR=2,1` bearer query when the address `a` is
bound to context 1. -/
def sapbrLine (a : List Nat) : List Nat :=
  codes "+SAPBR: 1,1," ++ (34 :: (a ++ [34]))

/-- Evaluation of the classification chain on the literal line `OK`. -/
theorem classifyLine_ok (st : St) :
    classifyLine (codes "OK") st = Except.ok (("OK", Payload.pnone), st) := rfl

theorem sapbrLine_facts {a : List Nat} (hgood : ∀ b ∈ a, goodIpByte b = true) :
    pyStripB (sapbrLine a) = sapbrLine a ∧
    convert_to_string (sapbrLine a) = some (sapbrLine a) ∧
    splitOnNat 44 (sapbrLine a) = [codes "+SAPBR: 1", codes "1", 34 :: (a ++ [34])] ∧
    pyRemove 34 (34 :: (a ++ [34])) = a ∧
    sapbrLine a ≠ [] := by
  have hhead : (sapbrLine a).head? = some 43 := by
    rw [sapbrLine, head?_append_left _ (by decide)]
    rfl
  have hlast : (sapbrLine a).getLast? = some 34 := by
    rw [sapbrLine, List.getLast?_append_of_ne_nil _ (by simp)]
    have : (34 :: (a ++ [34])) = (34 :: a) ++ [34] := by simp
    rw [this, List.getLast?_concat]
  have hedge : ∀ p : Nat → Bool, p 43 = false → p 34 = false →
      pyStripWith p (sapbrLine a) = sapbrLine a := by
    intro p h43 h34
    apply pyStripWith_no_edge
    · intro x hx
      rw [hhead] at hx
      obtain rfl := Option.some.inj hx
      exact h43
    · intro x hx
      rw [hlast] at hx
      obtain rfl := Option.some.inj hx
      exact h34
  have hdecode : gsmDecode (sapbrLine a) = some (sapbrLine a) := by
    apply gsmDecode_selfCode
    intro b hb
    rw [sapbrLine] at hb
    rcases List.mem_append.mp hb with hb1 | hb2
    · have hall : ∀ x ∈ codes "+SAPBR: 1,1,", SelfCode x := by decide
      exact hall b hb1
    · rcases List.mem_cons.mp hb2 with rfl | hb3
      · decide
      · rcases List.mem_append.mp hb3 with hb4 | hb5
        · exact (goodIpByte_facts (hgood b hb4)).1
        · rcases List.mem_singleton.mp hb5 with rfl
          decide
  refine ⟨hedge isWsByte (by decide) (by decide), ?_, ?_, ?_, ?_⟩
  · unfold convert_to_string
    rw [hdecode]
    show some (pyStripWith isWsStr (sapbrLine a)) = some (sapbrLine a)
    rw [hedge isWsStr (by decide) (by decide)]
  · have hassoc : sapbrLine a =
        codes "+SAPBR: 1" ++ (44 :: (codes "1" ++ (44 :: (34 :: (a ++ [34]))))) := rfl
    have t0 : splitOnNat 44 (34 :: (a ++ [34])) = [34 :: (a ++ [34])] := by
      apply splitOnNat_no_sep
      intro b hb
      rcases List.mem_cons.mp hb with rfl | hb2
      · decide
      · rcases List.mem_append.mp hb2 with hb3 | hb4
        · exact (goodIpByte_facts (hgood b hb3)).2.2.2.1
        · rcases List.mem_singleton.mp hb4 with rfl
          decide
    have t1 : splitOnNat 44 (codes "1" ++ (44 :: (34 :: (a ++ [34])))) =
        [codes "1", 34 :: (a ++ [34])] := by
      rw [splitOnNat_append_no_sep (by decide), splitOnNat_cons_sep, t0]
      rfl
    rw [hassoc, splitOnNat_append_no_sep (by decide), splitOnNat_cons_sep, t1]
    rfl
  · have hfa : ∀ b ∈ a, b ≠ 34 := fun b hb => (goodIpByte_facts (hgood b hb)).2.2.2.2.1
    simp only [pyRemove, List.filter_cons, List.filter_append]
    norm_num
    intro b hb
    exact hfa b hb
  · rw [sapbrLine]
    simp

/-- Run of `get_ip` against a modem whose scripted reply to the bearer query
is the bound-address line followed by `OK` (source lines 469-487): the parsed
address is returned and only the query command is written. -/
theorem get_ip_scripted (st : St) (a : List Nat) (srest : List (List (List Nat)))
    (hscript : st.script = [sapbrLine a, codes "OK"] :: srest)
    (hgood : ∀ b ∈ a, goodIpByte b = true) :
    get_ip st = Except.ok (IpRes.ipAddr a,
      { st with
        pending := [], script := srest,
        written := st.written ++ [codes "AT+SAPBR=2,1\n"] }) := by
  obtain ⟨hstripB, hconv, hs1, hrem, hlne⟩ := sapbrLine_facts hgood
  have e0 : convert_gsm (codes "AT+SAPBR=2,1\n") = some (codes "AT+SAPBR=2,1\n") := by
    decide
  have hci : ciDrain (codes "OK") [] = Except.ok (codes "OK", []) := by decide
  have hs2 : splitOnNat 58 (codes "+SAPBR: 1") = [codes "+SAPBR", codes " 1"] := by
    decide
  have f1 : pyStripS (codes "+SAPBR") = codes "+SAPBR" := rfl
  have f2 : pyStripS (codes " 1") = codes "1" := rfl
  have f3 : pyStripS (codes "1") = codes "1" := rfl
  have hokne : (codes "OK" : List Nat) ≠ [] := by decide
  simp [get_ip, command, mEncode, mDecode, e0, flushInput, serWrite, readline,
    mbind, mret, mmodify, mthrow, mget, hscript, hstripB, hconv, hlne,
    check_incoming, hci, classifyLine_ok, hs1, hs2, hrem, f1, f2, f3, hokne]

/-- Reuse path of `connect_gprs` (source lines 507-511): when the bearer query
reports a bound non-empty address, the address is returned as is and no
context-setup command is issued. -/
theorem connect_gprs_reuse (st : St) (apn a : List Nat) (srest : List (List (List Nat)))
    (hscript : st.script = [sapbrLine a, codes "OK"] :: srest)
    (hgood : ∀ b ∈ a, goodIpByte b = true) (hne : a ≠ []) :
    connect_gprs (some apn) st = Except.ok (CgRes.cgIp a,
      { st with
        pending := [], script := srest,
        written := st.written ++ [codes "AT+SAPBR=2,1\n"] }) := by
  have hg := get_ip_scripted st a srest hscript hgood
  simp [connect_gprs, mbind, mret, hg, hne]

/-- C5: calling `connect_gprs(apn)` twice in a row without an intervening
disconnect, while the modem keeps reporting the same address bound to bearer
context 1, returns the same IP address both times and writes only the two
`AT+SAPBR=2,1` bearer queries — the context-setup/bearer-open command
(`AT+SAPBR=3,1,...;+SAPBR=1,1`) is never issued. -/
theorem connect_gprs_idempotent (st : St) (apn a : List Nat)
    (hscript : st.script =
      [[sapbrLine a, codes "OK"], [sapbrLine a, codes "OK"]])
    (hgood : ∀ b ∈ a, goodIpByte b = true) (hne : a ≠ []) :
    ((do
      let r1 ← connect_gprs (some apn)
      let r2 ← connect_gprs (some apn)
      pure (r1, r2) : M (CgRes × CgRes)) st).map
        (fun p => (p.1, p.2.written)) =
      Except.ok ((CgRes.cgIp a, CgRes.cgIp a),
        st.written ++ [codes "AT+SAPBR=2,1\n", codes "AT+SAPBR=2,1\n"]) := by
  have h1 := connect_gprs_reuse st apn a [[sapbrLine a, codes "OK"]] hscript hgood hne
  have h2 := connect_gprs_reuse
    { st with
      pending := [], script := [[sapbrLine a, codes "OK"]],
      written := st.written ++ [codes "AT+SAPBR=2,1\n"] }
    apn a [] rfl hgood hne
  simp [mbind, mret, h1, h2, Except.map]

/-- C5 witness: the idempotent reuse at the concrete address `10.0.0.1` and
APN `internet`. -/
theorem connect_gprs_idempotent_witness :
    (({ baseSt with script :=
          [[sapbrLine (codes "10.0.0.1"), codes "OK"],
            [sapbrLine (codes "10.0.0.1"), codes "OK"]] } : St).script =
        [[sapbrLine (codes "10.0.0.1"), codes "OK"],
          [sapbrLine (codes "10.0.0.1"), codes "OK"]] ∧
      (∀ b ∈ codes "10.0.0.1", goodIpByte b = true) ∧
      codes "10.0.0.1" ≠ []) ∧
    ((do
      let r1 ← connect_gprs (some (codes "internet"))
      let r2 ← connect_gprs (some (codes "internet"))
      pure (r1, r2) : M (CgRes × CgRes))
        { baseSt with script :=
          [[sapbrLine (codes "10.0.0.1"), codes "OK"],
            [sapbrLine (codes "10.0.0.1"), codes "OK"]] }).map
        (fun p => (p.1, p.2.written)) =
      Except.ok ((CgRes.cgIp (codes "10.0.0.1"), CgRes.cgIp (codes "10.0.0.1")),
        [codes "AT+SAPBR=2,1\n", codes "AT+SAPBR=2,1\n"]) := by
  refine ⟨⟨rfl, by decide, by decide⟩, ?_⟩
  have h := connect_gprs_idempotent
    { baseSt with script :=
      [[sapbrLine (codes "10.0.0.1"), codes "OK"],
        [sapbrLine (codes "10.0.0.1"), codes "OK"]] }
    (codes "internet") (codes "10.0.0.1") rfl (by decide) (by decide)
  simpa using h
